import Mathlib

/-!
Greenhouse controller: control, alarm and persistence logic.

A shallow embedding of `ghcontrol.c` / `ghcontrol.h`.

* A C `double` is its 64-bit IEEE-754 binary64 pattern; the comparison
  operators of C are defined on the patterns (NaN compares false with
  everything, `+0` and `-0` compare equal).
* `time_t` is an integer.
* The alarm array `alarm_s calarm[NALARMS]` is a function from the seven
  indices to slots; the C function mutates it in place, the model returns the
  new array.
* Files are byte strings held in a file system that also says which of the
  `fopen` modes succeed on each path. The program does not test the results
  of `fwrite`, `fprintf` and `fclose`: how many of the bytes it writes reach
  the file is a parameter `accepted` of each writing function.
* A `char` buffer is a list of cells, a cell not yet written being
  indeterminate; a call that writes past the end of a buffer, copies from a
  null pointer or reads an indeterminate cell has undefined behaviour, and the
  function returns `none`.
* The values the program obtains from outside (`rand()`, the sensor driver,
  the text of `ctime`, the number formatting of `fprintf`) are parameters.
-/

namespace GhControl

/-! ## C doubles -/

/-- A C `double`: the 64 bits of an IEEE-754 binary64 value. -/
structure Dbl where
  val : Nat
  isLt : val < 2 ^ 64
  deriving DecidableEq, Repr

namespace Dbl

/-- The double with the bit pattern `n` (its low 64 bits). -/
def ofBits (n : Nat) : Dbl := ⟨n % 2 ^ 64, Nat.mod_lt _ (by decide)⟩

/-- The sign bit (bit 63). -/
def sign (d : Dbl) : Nat := d.val / 2 ^ 63

/-- Exponent and fraction (bits 62..0) read as one natural number. -/
def mag (d : Dbl) : Nat := d.val % 2 ^ 63

/-- The magnitude of the infinities: exponent all ones, fraction zero. -/
def infMag : Nat := 0x7FF0000000000000

/-- NaN: exponent all ones and a non-zero fraction. -/
def isNaN (d : Dbl) : Bool := decide (infMag < mag d)

/-- Order key of a non-NaN double: binary64 is sign-magnitude and the
magnitudes are ordered like their bit patterns, both zeros have key 0. -/
def key (d : Dbl) : Int := if sign d = 0 then (mag d : Int) else -(mag d : Int)

/-- C `a < b` on doubles. -/
def lt (a b : Dbl) : Bool := !isNaN a && !isNaN b && decide (key a < key b)

/-- C `a <= b` on doubles. -/
def le (a b : Dbl) : Bool := !isNaN a && !isNaN b && decide (key a ≤ key b)

/-- C `a >= b` on doubles. -/
def ge (a b : Dbl) : Bool := le b a

/-- C `a == b` on doubles. -/
def eq (a b : Dbl) : Bool := !isNaN a && !isNaN b && decide (key a = key b)

/-- Position of the highest set bit of a positive number (0 for 0 and 1),
by halving at most `fuel` times. -/
def ilog2 : Nat → Nat → Nat
  | 0, _ => 0
  | fuel + 1, n => if n < 2 then 0 else ilog2 fuel (n / 2) + 1

/-- Conversion of a C `int` to `double`. The conversion is exact for every
integer below `2 ^ 53` in absolute value, which covers the 32-bit `int`. -/
def ofInt (n : Int) : Dbl :=
  let m := n.natAbs
  if m = 0 then ofBits 0
  else
    let e := ilog2 64 m
    let s := if n < 0 then 2 ^ 63 else 0
    ofBits (s + (1023 + e) * 2 ^ 52 + (m - 2 ^ e) * 2 ^ 52 / 2 ^ e)

end Dbl

/-! ## Constants of `ghcontrol.h` -/

def USTEMP : Int := 50
def LSTEMP : Int := -10
def USHUMID : Int := 100
def LSHUMID : Int := 0
def USPRESS : Int := 1016
def LSPRESS : Int := 975
def SIMTEMPERATURE : Bool := false
def SIMHUMIDITY : Bool := false
def SIMPRESSURE : Bool := false

/-- The literal `25.0`. -/
def STEMP : Dbl := Dbl.ofBits 0x4039000000000000
/-- The literal `55.0`. -/
def SHUMID : Dbl := Dbl.ofBits 0x404B800000000000
def ON : Int := 1
def OFF : Int := 0

abbrev NALARMS : Nat := 7
def LOWERATEMP : Int := 10
def UPPERATEMP : Int := 30
def LOWERAHUMID : Int := 25
def UPPERAHUMID : Int := 70
def LOWERAPRESS : Int := 985
def UPPERAPRESS : Int := 1016
def CTIMESTRSZ : Nat := 25

/-! ## Types of `ghcontrol.h` -/

/-- The enumeration `alarm_e`; a C enumeration is an integer, the seven
enumerators are the numbers 0 to 6. -/
abbrev alarm_e := Nat

def NOALARM : alarm_e := 0
def HTEMP : alarm_e := 1
def LTEMP : alarm_e := 2
def HHUMID : alarm_e := 3
def LHUMID : alarm_e := 4
def HPRESS : alarm_e := 5
def LPRESS : alarm_e := 6

structure alarmlimit_s where
  hight : Dbl
  lowt : Dbl
  highh : Dbl
  lowh : Dbl
  highp : Dbl
  lowp : Dbl
  deriving DecidableEq, Repr

structure alarm_s where
  code : alarm_e
  atime : Int
  value : Dbl
  deriving DecidableEq, Repr

structure reading_s where
  rtime : Int
  temperature : Dbl
  humidity : Dbl
  pressure : Dbl
  deriving DecidableEq, Repr

structure setpoint_s where
  temperature : Dbl
  humidity : Dbl
  deriving DecidableEq, Repr

structure control_s where
  heater : Int
  humidifier : Int
  deriving DecidableEq, Repr

/-! ## Control evaluation -/

/-- `GhSetControls`: both actuators are recomputed from the reading. -/
def GhSetControls (target : setpoint_s) (rdata : reading_s) : control_s :=
  let cset : control_s := ⟨0, 0⟩
  let cset := if Dbl.lt rdata.temperature target.temperature
    then { cset with heater := ON } else { cset with heater := OFF }
  let cset := if Dbl.lt rdata.humidity target.humidity
    then { cset with humidifier := ON } else { cset with humidifier := OFF }
  cset

/-! ## Alarm evaluation -/

/-- The array `alarm_s calarm[NALARMS]`. -/
abbrev AlarmArray := Fin NALARMS → alarm_s

/-- `GhSetAlarmLimits`: the limits compiled in, each integer constant
converted to `double` by the assignment. -/
def GhSetAlarmLimits : alarmlimit_s :=
  { hight := Dbl.ofInt UPPERATEMP
    lowt := Dbl.ofInt LOWERATEMP
    highh := Dbl.ofInt UPPERAHUMID
    lowh := Dbl.ofInt LOWERAHUMID
    highp := Dbl.ofInt UPPERAPRESS
    lowp := Dbl.ofInt LOWERAPRESS }

/-- The loop `for (i = 0; i < NALARMS; i++) calarm[i].code = NOALARM;`:
only the `code` member of each slot is assigned. -/
def clearCodes (calarm : AlarmArray) : AlarmArray :=
  (List.finRange NALARMS).foldl
    (fun a i => Function.update a i { a i with code := NOALARM }) calarm

/-- The three assignments of one `if` body of `GhSetAlarms`. -/
def raise (calarm : AlarmArray) (k : Fin NALARMS) (t : Int) (v : Dbl) : AlarmArray :=
  let calarm := Function.update calarm k { calarm k with code := k.val }
  let calarm := Function.update calarm k { calarm k with atime := t }
  Function.update calarm k { calarm k with value := v }

/-- `GhSetAlarms`; the array passed by pointer is returned. -/
def GhSetAlarms (calarm : AlarmArray) (alarmpt : alarmlimit_s) (rdata : reading_s) :
    AlarmArray :=
  let calarm := clearCodes calarm
  let calarm := if Dbl.ge rdata.temperature alarmpt.hight
    then raise calarm ⟨HTEMP, by decide⟩ rdata.rtime rdata.temperature else calarm
  let calarm := if Dbl.le rdata.temperature alarmpt.lowt
    then raise calarm ⟨LTEMP, by decide⟩ rdata.rtime rdata.temperature else calarm
  let calarm := if Dbl.ge rdata.humidity alarmpt.highh
    then raise calarm ⟨HHUMID, by decide⟩ rdata.rtime rdata.humidity else calarm
  let calarm := if Dbl.le rdata.humidity alarmpt.lowh
    then raise calarm ⟨LHUMID, by decide⟩ rdata.rtime rdata.humidity else calarm
  let calarm := if Dbl.ge rdata.pressure alarmpt.highp
    then raise calarm ⟨HPRESS, by decide⟩ rdata.rtime rdata.pressure else calarm
  let calarm := if Dbl.le rdata.pressure alarmpt.lowp
    then raise calarm ⟨LPRESS, by decide⟩ rdata.rtime rdata.pressure else calarm
  calarm

/-! ## Simulated readings -/

/-- `GhGetRandom`; `rnd` is the value returned by the call of `rand()`.
The C operator `%` truncates towards zero. -/
def GhGetRandom (rnd : Int) (range : Int) : Int := Int.tmod rnd range

/-- `GhGetHumidity`; `sim` is the preprocessor switch `SIMHUMIDITY`, `sensor`
the humidity delivered by the sensor driver. The `int` returned by
`GhGetRandom` is converted to the `double` result. -/
def GhGetHumidity (sim : Bool) (rnd : Int) (sensor : Dbl) : Dbl :=
  if sim then Dbl.ofInt (GhGetRandom rnd (USHUMID - LSHUMID)) else sensor

/-- `GhGetPressure`; `sim` is the preprocessor switch `SIMPRESSURE`. -/
def GhGetPressure (sim : Bool) (rnd : Int) (sensor : Dbl) : Dbl :=
  if sim then Dbl.ofInt (GhGetRandom rnd (USPRESS - LSPRESS) + LSPRESS) else sensor

/-- `GhGetTemperature`; `sim` is the preprocessor switch `SIMTEMPERATURE`. -/
def GhGetTemperature (sim : Bool) (rnd : Int) (sensor : Dbl) : Dbl :=
  if sim then Dbl.ofInt (GhGetRandom rnd (USTEMP - LSTEMP) + LSTEMP) else sensor

/-! ## Files -/

/-- A byte, the C `char`. -/
abbrev Byte := Fin 256

/-- The byte of an ASCII character. -/
def chr (c : Char) : Byte := Fin.ofNat c.toNat

/-- The files seen through `fopen`: what each path holds (`none`: no such
file) and whether the process may read, respectively write, there. -/
structure FileSys where
  content : String → Option (List Byte)
  readable : String → Bool
  writable : String → Bool

/-- `fopen(fname, "r")`: the bytes of the file when it exists and may be read,
`none` for the null pointer. -/
def FileSys.openRead (fs : FileSys) (fname : String) : Option (List Byte) :=
  if fs.readable fname then fs.content fname else none

/-- The file system after `fname` has been given the content `bytes`. -/
def FileSys.store (fs : FileSys) (fname : String) (bytes : List Byte) : FileSys :=
  { fs with content := fun p => if p = fname then some bytes else fs.content p }

/-- The `k` low bytes of `n`, least significant first. -/
def leBytes : Nat → Nat → List Byte
  | 0, _ => []
  | k + 1, n => Fin.ofNat (n % 256) :: leBytes k (n / 256)

/-- The number whose bytes, least significant first, are `bs`. -/
def leValue : List Byte → Nat
  | [] => 0
  | b :: bs => b.val + 256 * leValue bs

/-- The 16 bytes of a `setpoint_s` object: `temperature`, then `humidity`,
eight bytes each, least significant byte first. -/
def setpointBytes (spts : setpoint_s) : List Byte :=
  leBytes 8 spts.temperature.val ++ leBytes 8 spts.humidity.val

/-- The `setpoint_s` object whose first bytes have been overwritten by `bytes`
(at most 16 of them are used), starting from the object `{0}`. -/
def setpointOfBytes (bytes : List Byte) : setpoint_s :=
  let img := (bytes.take 16 ++ List.replicate 16 0).take 16
  { temperature := Dbl.ofBits (leValue (img.take 8))
    humidity := Dbl.ofBits (leValue ((img.drop 8).take 8)) }

/-- `GhSaveSetpoints`: the value returned and the file system left behind.
Mode `"w"` empties or creates the file and `fwrite` writes the object, of which
the first `accepted` bytes reach the file; the value returned does not depend
on that, the results of `fwrite` and `fclose` are not tested. -/
def GhSaveSetpoints (accepted : Nat) (fs : FileSys) (fname : String) (spts : setpoint_s) :
    Int × FileSys :=
  if fs.writable fname then (1, fs.store fname ((setpointBytes spts).take accepted))
  else (0, fs)

/-- `GhRetrieveSetpoints`: `spts` starts as `{0}` and `fread` copies up to
`sizeof(spts)` bytes of the file over it. -/
def GhRetrieveSetpoints (fs : FileSys) (fname : String) : setpoint_s :=
  let spts : setpoint_s := ⟨Dbl.ofBits 0, Dbl.ofBits 0⟩
  match fs.openRead fname with
  | none => spts
  | some bytes => setpointOfBytes bytes

/-- `GhSetTargets`. -/
def GhSetTargets (fs : FileSys) : setpoint_s :=
  let cpoints := GhRetrieveSetpoints fs "setpoints.dat"
  if Dbl.eq cpoints.temperature (Dbl.ofInt 0) then
    let cpoints := { cpoints with temperature := STEMP }
    { cpoints with humidity := SHUMID }
  else cpoints

/-- `strcpy(dest, src)` into a buffer of `size` cells not yet written: the
characters of `src` before its terminating zero, then the zero; `none` when
they do not fit into the buffer. -/
def strcpy (size : Nat) (src : List Byte) : Option (List (Option Byte)) :=
  let chars := src.takeWhile (fun b => b ≠ 0)
  if chars.length + 1 ≤ size then
    some (chars.map some ++ some 0 :: List.replicate (size - (chars.length + 1)) none)
  else none

/-- The characters the conversion `%.Ns` prints from a buffer: at most `n`, up
to the first zero; `none` when an indeterminate cell or the end of the buffer
is met first. -/
def readStr : Nat → List (Option Byte) → Option (List Byte)
  | 0, _ => some []
  | _ + 1, [] => none
  | _ + 1, none :: _ => none
  | n + 1, some b :: cells => if b = 0 then some [] else (readStr n cells).map (fun l => b :: l)

/-- The line written by `fprintf(fp, "\n%.24s,%5.1lf,%5.1lf,%6.1lf", ...)`,
`stamp` being the text of `%.24s`. `fmt w p x` is the text of the conversion
`%w.plf` applied to `x`. -/
def logLine (fmt : Nat → Nat → Dbl → List Byte) (stamp : List Byte) (ghdata : reading_s) :
    List Byte :=
  chr '\n' :: stamp ++ chr ',' :: fmt 5 1 ghdata.temperature ++
    chr ',' :: fmt 5 1 ghdata.humidity ++ chr ',' :: fmt 6 1 ghdata.pressure

/-- `GhLogData`: the value returned and the file system left behind, `none`
for undefined behaviour. `ctime t` is the string returned by the library
function `ctime` (its characters, without the terminating zero), or `none` for
the null pointer; `ltime` is the buffer `char ltime[CTIMESTRSZ]`. Of the line
printed the first `accepted` bytes reach the file; the results of `fprintf`
and `fclose` are not tested. -/
def GhLogData (ctime : Int → Option (List Byte)) (fmt : Nat → Nat → Dbl → List Byte)
    (accepted : Nat) (fs : FileSys) (fname : String) (ghdata : reading_s) :
    Option (Int × FileSys) :=
  if fs.writable fname then
    match ctime ghdata.rtime with
    | none => none
    | some text =>
      match strcpy CTIMESTRSZ text with
      | none => none
      | some ltime =>
        let ltime := ltime.set 3 (some (chr ','))
        let ltime := ltime.set 7 (some (chr ','))
        let ltime := ltime.set 10 (some (chr ','))
        let ltime := ltime.set 19 (some (chr ','))
        match readStr 24 ltime with
        | none => none
        | some stamp =>
          some (1, fs.store fname
            ((fs.content fname).getD [] ++ (logLine fmt stamp ghdata).take accepted))
  else some (0, fs)

/-! ## Vocabulary of the statements -/

/-- The comparison that `GhSetAlarms` makes for slot `i`: the condition of the
`if` statement that assigns `calarm[i]`; no statement assigns slot 0. -/
def triggers (alarmpt : alarmlimit_s) (rdata : reading_s) (i : Fin NALARMS) : Bool :=
  if i.val = HTEMP then Dbl.ge rdata.temperature alarmpt.hight
  else if i.val = LTEMP then Dbl.le rdata.temperature alarmpt.lowt
  else if i.val = HHUMID then Dbl.ge rdata.humidity alarmpt.highh
  else if i.val = LHUMID then Dbl.le rdata.humidity alarmpt.lowh
  else if i.val = HPRESS then Dbl.ge rdata.pressure alarmpt.highp
  else if i.val = LPRESS then Dbl.le rdata.pressure alarmpt.lowp
  else false

/-- The measurement that slot `i` is about. -/
def quantity (rdata : reading_s) (i : Fin NALARMS) : Dbl :=
  if i.val = HTEMP ∨ i.val = LTEMP then rdata.temperature
  else if i.val = HHUMID ∨ i.val = LHUMID then rdata.humidity
  else rdata.pressure

/-- An alarm array with every member of every slot zero, as `main` declares
it (`alarm_s warn[NALARMS] = {0}`). -/
def zeroAlarms : AlarmArray := fun _ => ⟨NOALARM, 0, Dbl.ofBits 0⟩

/-- The reading taken at time `t` with whole-number measurements. -/
def readingOfInts (t temperature humidity pressure : Int) : reading_s :=
  ⟨t, Dbl.ofInt temperature, Dbl.ofInt humidity, Dbl.ofInt pressure⟩

/-- A file system in which `setpoints.dat` exists with three bytes of content
and may be written but not read; no other file exists. -/
def writeOnlyFiles : FileSys :=
  { content := fun p => if p = "setpoints.dat" then some [1, 2, 3] else none
    readable := fun _ => false
    writable := fun _ => true }

/-- A file system in which `setpoints.dat` exists with three bytes of content
and every path may be read and written; no other file exists. -/
def openFiles : FileSys :=
  { content := fun p => if p = "setpoints.dat" then some [1, 2, 3] else none
    readable := fun _ => true
    writable := fun _ => true }

/-- A file system without files in which nothing may be written. -/
def lockedFiles : FileSys :=
  { content := fun _ => none
    readable := fun _ => true
    writable := fun _ => false }

/-- The string `ctime` gives for time 0 in UTC, at every time: 24 characters
and a newline. -/
def epochText : Int → Option (List Byte) :=
  fun _ => some ("Thu Jan  1 00:00:00 1970\n".toList.map chr)

/-- A string of 24 characters, the text of `epochText` without its newline,
at every time. -/
def shortText : Int → Option (List Byte) :=
  fun _ => some ("Thu Jan  1 00:00:00 1970".toList.map chr)

/-- The null pointer, at every time. -/
def nullText : Int → Option (List Byte) := fun _ => none

/-- A stand-in for the number formatting of `fprintf`: a single `#`. -/
def hashText : Nat → Nat → Dbl → List Byte := fun _ _ _ => [chr '#']

/-! # Properties -/

/-! ## Facts about the comparison of doubles -/

/-- The conversion `Dbl.ofInt` at the constants of `ghcontrol.h`, against the
binary64 patterns of these numbers. -/
theorem Dbl.ofInt_constants :
    Dbl.ofInt 0 = Dbl.ofBits 0 ∧
    Dbl.ofInt 25 = Dbl.ofBits 0x4039000000000000 ∧
    Dbl.ofInt 55 = Dbl.ofBits 0x404B800000000000 ∧
    Dbl.ofInt UPPERATEMP = Dbl.ofBits 0x403E000000000000 ∧
    Dbl.ofInt LOWERATEMP = Dbl.ofBits 0x4024000000000000 ∧
    Dbl.ofInt UPPERAHUMID = Dbl.ofBits 0x4051800000000000 ∧
    Dbl.ofInt LOWERAHUMID = Dbl.ofBits 0x4039000000000000 ∧
    Dbl.ofInt UPPERAPRESS = Dbl.ofBits 0x408FC00000000000 ∧
    Dbl.ofInt LOWERAPRESS = Dbl.ofBits 0x408EC80000000000 ∧
    Dbl.ofInt LSTEMP = Dbl.ofBits 0xC024000000000000 ∧
    Dbl.ofInt USTEMP = Dbl.ofBits 0x4049000000000000 ∧
    Dbl.ofInt USHUMID = Dbl.ofBits 0x4059000000000000 ∧
    Dbl.ofInt LSPRESS = Dbl.ofBits 0x408E780000000000 := by
  decide

theorem Dbl.lt_irrefl (a : Dbl) : Dbl.lt a a = false := by
  simp [Dbl.lt]

theorem GhSetControls_eq (target : setpoint_s) (rdata : reading_s) :
    GhSetControls target rdata =
      ⟨if Dbl.lt rdata.temperature target.temperature then ON else OFF,
       if Dbl.lt rdata.humidity target.humidity then ON else OFF⟩ := by
  unfold GhSetControls
  cases Dbl.lt rdata.temperature target.temperature <;>
    cases Dbl.lt rdata.humidity target.humidity <;> rfl

/-! ## The alarm array after `GhSetAlarms` -/

theorem foldl_clear_apply (l : List (Fin NALARMS)) (calarm : AlarmArray) (i : Fin NALARMS) :
    l.foldl (fun a j => Function.update a j { a j with code := NOALARM }) calarm i =
      if i ∈ l then { calarm i with code := NOALARM } else calarm i := by
  induction l generalizing calarm with
  | nil => simp
  | cons j l ih =>
    rw [List.foldl_cons, ih]
    by_cases hij : i = j
    · subst hij
      simp
    · by_cases hil : i ∈ l <;> simp [hij, hil, Function.update]

theorem clearCodes_apply (calarm : AlarmArray) (i : Fin NALARMS) :
    clearCodes calarm i = { calarm i with code := NOALARM } := by
  unfold clearCodes
  rw [foldl_clear_apply]
  simp [List.mem_finRange]

theorem raise_apply (calarm : AlarmArray) (k i : Fin NALARMS) (t : Int) (v : Dbl) :
    raise calarm k t v i = if i = k then ⟨k.val, t, v⟩ else calarm i := by
  unfold raise
  by_cases h : i = k
  · subst h; simp
  · simp [Function.update, h]

theorem cond_raise_apply (c : Bool) (calarm : AlarmArray) (k i : Fin NALARMS) (t : Int)
    (v : Dbl) :
    (if c = true then raise calarm k t v else calarm) i =
      if c = true ∧ i = k then ⟨k.val, t, v⟩ else calarm i := by
  cases c <;> simp [raise_apply]

/-- Every slot after `GhSetAlarms`: the full record of the reading when the
slot's comparison holds, the prior slot with only its code cleared otherwise. -/
theorem GhSetAlarms_apply (calarm : AlarmArray) (alarmpt : alarmlimit_s) (rdata : reading_s)
    (i : Fin NALARMS) :
    GhSetAlarms calarm alarmpt rdata i =
      if triggers alarmpt rdata i then ⟨i.val, rdata.rtime, quantity rdata i⟩
      else { calarm i with code := NOALARM } := by
  unfold GhSetAlarms
  simp only [cond_raise_apply, clearCodes_apply]
  fin_cases i <;>
    simp [triggers, quantity, HTEMP, LTEMP, HHUMID, LHUMID, HPRESS, LPRESS, Fin.ext_iff]

theorem Dbl.le_false_of_lt {a b : Dbl} (h : Dbl.lt a b = true) : Dbl.le b a = false := by
  simp only [Dbl.lt, Dbl.le, Bool.and_eq_true, Bool.not_eq_true', decide_eq_true_eq] at h ⊢
  obtain ⟨⟨ha, hb⟩, hk⟩ := h
  simp only [ha, hb, Bool.not_false, Bool.true_and, decide_eq_false_iff_not]
  omega

theorem Dbl.ge_false_of_lt {a b : Dbl} (h : Dbl.lt a b = true) : Dbl.ge a b = false :=
  Dbl.le_false_of_lt h

/-- No value is at or above the high limit and at or below the low limit when
the low limit is below the high limit. -/
theorem Dbl.not_ge_and_le {x lo hi : Dbl} (h : Dbl.lt lo hi = true) :
    ¬(Dbl.ge x hi = true ∧ Dbl.le x lo = true) := by
  simp only [Dbl.lt, Dbl.le, Dbl.ge, Bool.and_eq_true, Bool.not_eq_true',
    decide_eq_true_eq] at h ⊢
  rintro ⟨⟨_, h1⟩, ⟨_, h2⟩⟩
  omega

theorem triggers_zero (alarmpt : alarmlimit_s) (rdata : reading_s) :
    triggers alarmpt rdata ⟨NOALARM, by decide⟩ = false := by
  simp [triggers, NOALARM, HTEMP, LTEMP, HHUMID, LHUMID, HPRESS, LPRESS]

/-- A slot is active after `GhSetAlarms` exactly when its comparison holds. -/
theorem GhSetAlarms_code_ne (calarm : AlarmArray) (alarmpt : alarmlimit_s) (rdata : reading_s)
    (i : Fin NALARMS) :
    (GhSetAlarms calarm alarmpt rdata i).code ≠ NOALARM ↔ triggers alarmpt rdata i = true := by
  rw [GhSetAlarms_apply]
  cases h : triggers alarmpt rdata i
  · simp
  · have hi : i.val ≠ 0 := by
      intro h0
      have : i = ⟨NOALARM, by decide⟩ := Fin.ext h0
      rw [this, triggers_zero] at h
      exact Bool.noConfusion h
    simpa [NOALARM] using hi

/-- Claim C1: `GhSetControls` switches the heater ON (1) exactly when the
temperature read is below the target temperature (C `<` on doubles) and OFF (0)
otherwise, and the humidifier ON exactly when the humidity read is below the
target humidity and OFF otherwise; a reading equal to the target {25, 55}
gives both actuators OFF. -/
theorem GhSetControls_spec (target : setpoint_s) (rdata : reading_s) :
    ((GhSetControls target rdata).heater = ON ↔
        Dbl.lt rdata.temperature target.temperature = true) ∧
    ((GhSetControls target rdata).heater = OFF ↔
        Dbl.lt rdata.temperature target.temperature = false) ∧
    ((GhSetControls target rdata).humidifier = ON ↔
        Dbl.lt rdata.humidity target.humidity = true) ∧
    ((GhSetControls target rdata).humidifier = OFF ↔
        Dbl.lt rdata.humidity target.humidity = false) ∧
    (∀ (t : Int) (p : Dbl), GhSetControls ⟨Dbl.ofInt 25, Dbl.ofInt 55⟩
        ⟨t, Dbl.ofInt 25, Dbl.ofInt 55, p⟩ = ⟨OFF, OFF⟩) := by
  rw [GhSetControls_eq]
  refine ⟨?_, ?_, ?_, ?_, ?_⟩
  · cases Dbl.lt rdata.temperature target.temperature <;> simp [ON, OFF]
  · cases Dbl.lt rdata.temperature target.temperature <;> simp [ON, OFF]
  · cases Dbl.lt rdata.humidity target.humidity <;> simp [ON, OFF]
  · cases Dbl.lt rdata.humidity target.humidity <;> simp [ON, OFF]
  · intro t p
    simp [GhSetControls_eq, Dbl.lt_irrefl]

/-- Claim C2: after `GhSetAlarms`, whatever the array held before, slot HTEMP
has code HTEMP exactly when temperature >= hight, slot LTEMP code LTEMP exactly
when temperature <= lowt, slot HHUMID code HHUMID exactly when
humidity >= highh, slot LHUMID code LHUMID exactly when humidity <= lowh, slot
HPRESS code HPRESS exactly when pressure >= highp and slot LPRESS code LPRESS
exactly when pressure <= lowp; the comparisons are the inclusive ones of C, so
a reading equal to a limit triggers. -/
theorem GhSetAlarms_code_iff (calarm : AlarmArray) (alarmpt : alarmlimit_s)
    (rdata : reading_s) :
    ((GhSetAlarms calarm alarmpt rdata ⟨HTEMP, by decide⟩).code = HTEMP ↔
        Dbl.ge rdata.temperature alarmpt.hight = true) ∧
    ((GhSetAlarms calarm alarmpt rdata ⟨LTEMP, by decide⟩).code = LTEMP ↔
        Dbl.le rdata.temperature alarmpt.lowt = true) ∧
    ((GhSetAlarms calarm alarmpt rdata ⟨HHUMID, by decide⟩).code = HHUMID ↔
        Dbl.ge rdata.humidity alarmpt.highh = true) ∧
    ((GhSetAlarms calarm alarmpt rdata ⟨LHUMID, by decide⟩).code = LHUMID ↔
        Dbl.le rdata.humidity alarmpt.lowh = true) ∧
    ((GhSetAlarms calarm alarmpt rdata ⟨HPRESS, by decide⟩).code = HPRESS ↔
        Dbl.ge rdata.pressure alarmpt.highp = true) ∧
    ((GhSetAlarms calarm alarmpt rdata ⟨LPRESS, by decide⟩).code = LPRESS ↔
        Dbl.le rdata.pressure alarmpt.lowp = true) ∧
    (∀ x : Dbl, Dbl.isNaN x = false → Dbl.ge x x = true ∧ Dbl.le x x = true) := by
  simp only [GhSetAlarms_apply]
  refine ⟨?_, ?_, ?_, ?_, ?_, ?_, ?_⟩
  · cases h : Dbl.ge rdata.temperature alarmpt.hight <;>
      simp [triggers, h, HTEMP, LTEMP, HHUMID, LHUMID, HPRESS, LPRESS, NOALARM]
  · cases h : Dbl.le rdata.temperature alarmpt.lowt <;>
      simp [triggers, h, HTEMP, LTEMP, HHUMID, LHUMID, HPRESS, LPRESS, NOALARM]
  · cases h : Dbl.ge rdata.humidity alarmpt.highh <;>
      simp [triggers, h, HTEMP, LTEMP, HHUMID, LHUMID, HPRESS, LPRESS, NOALARM]
  · cases h : Dbl.le rdata.humidity alarmpt.lowh <;>
      simp [triggers, h, HTEMP, LTEMP, HHUMID, LHUMID, HPRESS, LPRESS, NOALARM]
  · cases h : Dbl.ge rdata.pressure alarmpt.highp <;>
      simp [triggers, h, HTEMP, LTEMP, HHUMID, LHUMID, HPRESS, LPRESS, NOALARM]
  · cases h : Dbl.le rdata.pressure alarmpt.lowp <;>
      simp [triggers, h, HTEMP, LTEMP, HHUMID, LHUMID, HPRESS, LPRESS, NOALARM]
  · intro x hx
    simp [Dbl.ge, Dbl.le, hx]

/-- Claim C3: every slot whose comparison holds is left by `GhSetAlarms` with
code = the slot's alarm kind, atime = the reading's time and value = the
reading's temperature (HTEMP, LTEMP), humidity (HHUMID, LHUMID) or pressure
(HPRESS, LPRESS). With the compiled-in limits and the reading
{temperature 30, humidity 50, pressure 1000} the only slot whose code is not
NOALARM is HTEMP, and it holds the value 30. -/
theorem GhSetAlarms_slot (calarm : AlarmArray) (alarmpt : alarmlimit_s) (rdata : reading_s) :
    (Dbl.ge rdata.temperature alarmpt.hight = true →
      GhSetAlarms calarm alarmpt rdata ⟨HTEMP, by decide⟩ =
        ⟨HTEMP, rdata.rtime, rdata.temperature⟩) ∧
    (Dbl.le rdata.temperature alarmpt.lowt = true →
      GhSetAlarms calarm alarmpt rdata ⟨LTEMP, by decide⟩ =
        ⟨LTEMP, rdata.rtime, rdata.temperature⟩) ∧
    (Dbl.ge rdata.humidity alarmpt.highh = true →
      GhSetAlarms calarm alarmpt rdata ⟨HHUMID, by decide⟩ =
        ⟨HHUMID, rdata.rtime, rdata.humidity⟩) ∧
    (Dbl.le rdata.humidity alarmpt.lowh = true →
      GhSetAlarms calarm alarmpt rdata ⟨LHUMID, by decide⟩ =
        ⟨LHUMID, rdata.rtime, rdata.humidity⟩) ∧
    (Dbl.ge rdata.pressure alarmpt.highp = true →
      GhSetAlarms calarm alarmpt rdata ⟨HPRESS, by decide⟩ =
        ⟨HPRESS, rdata.rtime, rdata.pressure⟩) ∧
    (Dbl.le rdata.pressure alarmpt.lowp = true →
      GhSetAlarms calarm alarmpt rdata ⟨LPRESS, by decide⟩ =
        ⟨LPRESS, rdata.rtime, rdata.pressure⟩) ∧
    GhSetAlarmLimits = ⟨Dbl.ofInt 30, Dbl.ofInt 10, Dbl.ofInt 70, Dbl.ofInt 25,
      Dbl.ofInt 1016, Dbl.ofInt 985⟩ ∧
    (∀ (t : Int) (i : Fin NALARMS),
      ((GhSetAlarms calarm GhSetAlarmLimits (readingOfInts t 30 50 1000) i).code ≠ NOALARM ↔
        i = ⟨HTEMP, by decide⟩) ∧
      GhSetAlarms calarm GhSetAlarmLimits (readingOfInts t 30 50 1000) ⟨HTEMP, by decide⟩ =
        ⟨HTEMP, t, Dbl.ofInt 30⟩) := by
  simp only [GhSetAlarms_apply]
  refine ⟨?_, ?_, ?_, ?_, ?_, ?_, rfl, ?_⟩
  · intro h
    simp [triggers, quantity, h, HTEMP, LTEMP, HHUMID, LHUMID, HPRESS, LPRESS]
  · intro h
    simp [triggers, quantity, h, HTEMP, LTEMP, HHUMID, LHUMID, HPRESS, LPRESS]
  · intro h
    simp [triggers, quantity, h, HTEMP, LTEMP, HHUMID, LHUMID, HPRESS, LPRESS]
  · intro h
    simp [triggers, quantity, h, HTEMP, LTEMP, HHUMID, LHUMID, HPRESS, LPRESS]
  · intro h
    simp [triggers, quantity, h, HTEMP, LTEMP, HHUMID, LHUMID, HPRESS, LPRESS]
  · intro h
    simp [triggers, quantity, h, HTEMP, LTEMP, HHUMID, LHUMID, HPRESS, LPRESS]
  · intro t i
    have h1 : Dbl.ge (Dbl.ofInt 30) (Dbl.ofInt UPPERATEMP) = true := by decide
    have h2 : Dbl.le (Dbl.ofInt 30) (Dbl.ofInt LOWERATEMP) = false := by decide
    have h3 : Dbl.ge (Dbl.ofInt 50) (Dbl.ofInt UPPERAHUMID) = false := by decide
    have h4 : Dbl.le (Dbl.ofInt 50) (Dbl.ofInt LOWERAHUMID) = false := by decide
    have h5 : Dbl.ge (Dbl.ofInt 1000) (Dbl.ofInt UPPERAPRESS) = false := by decide
    have h6 : Dbl.le (Dbl.ofInt 1000) (Dbl.ofInt LOWERAPRESS) = false := by decide
    fin_cases i <;>
      simp [triggers, quantity, readingOfInts, GhSetAlarmLimits, h1, h2, h3, h4, h5, h6,
        HTEMP, LTEMP, HHUMID, LHUMID, HPRESS, LPRESS, NOALARM, Fin.ext_iff]

/-- The six cases of `GhSetAlarms_slot` at concrete readings, each on a limit
of the compiled-in limits or beyond it. -/
theorem GhSetAlarms_slot_witness :
    GhSetAlarms zeroAlarms GhSetAlarmLimits (readingOfInts 7 30 50 1000) ⟨HTEMP, by decide⟩ =
        ⟨HTEMP, 7, Dbl.ofInt 30⟩ ∧
    GhSetAlarms zeroAlarms GhSetAlarmLimits (readingOfInts 7 10 50 1000) ⟨LTEMP, by decide⟩ =
        ⟨LTEMP, 7, Dbl.ofInt 10⟩ ∧
    GhSetAlarms zeroAlarms GhSetAlarmLimits (readingOfInts 7 20 71 1000) ⟨HHUMID, by decide⟩ =
        ⟨HHUMID, 7, Dbl.ofInt 71⟩ ∧
    GhSetAlarms zeroAlarms GhSetAlarmLimits (readingOfInts 7 20 25 1000) ⟨LHUMID, by decide⟩ =
        ⟨LHUMID, 7, Dbl.ofInt 25⟩ ∧
    GhSetAlarms zeroAlarms GhSetAlarmLimits (readingOfInts 7 20 50 1016) ⟨HPRESS, by decide⟩ =
        ⟨HPRESS, 7, Dbl.ofInt 1016⟩ ∧
    GhSetAlarms zeroAlarms GhSetAlarmLimits (readingOfInts 7 20 50 980) ⟨LPRESS, by decide⟩ =
        ⟨LPRESS, 7, Dbl.ofInt 980⟩ :=
  ⟨(GhSetAlarms_slot zeroAlarms GhSetAlarmLimits (readingOfInts 7 30 50 1000)).1 (by decide),
   (GhSetAlarms_slot zeroAlarms GhSetAlarmLimits (readingOfInts 7 10 50 1000)).2.1 (by decide),
   (GhSetAlarms_slot zeroAlarms GhSetAlarmLimits (readingOfInts 7 20 71 1000)).2.2.1
     (by decide),
   (GhSetAlarms_slot zeroAlarms GhSetAlarmLimits (readingOfInts 7 20 25 1000)).2.2.2.1
     (by decide),
   (GhSetAlarms_slot zeroAlarms GhSetAlarmLimits (readingOfInts 7 20 50 1016)).2.2.2.2.1
     (by decide),
   (GhSetAlarms_slot zeroAlarms GhSetAlarmLimits (readingOfInts 7 20 50 980)).2.2.2.2.2.1
     (by decide)⟩

/-- A reading strictly between the low and the high limit of each quantity
makes none of the six comparisons of `GhSetAlarms` hold. -/
theorem quiet_of_inside (alarmpt : alarmlimit_s) (rdata : reading_s)
    (ht : Dbl.lt alarmpt.lowt rdata.temperature = true ∧
      Dbl.lt rdata.temperature alarmpt.hight = true)
    (hh : Dbl.lt alarmpt.lowh rdata.humidity = true ∧
      Dbl.lt rdata.humidity alarmpt.highh = true)
    (hp : Dbl.lt alarmpt.lowp rdata.pressure = true ∧
      Dbl.lt rdata.pressure alarmpt.highp = true) :
    (Dbl.ge rdata.temperature alarmpt.hight = false ∧
      Dbl.le rdata.temperature alarmpt.lowt = false) ∧
    (Dbl.ge rdata.humidity alarmpt.highh = false ∧
      Dbl.le rdata.humidity alarmpt.lowh = false) ∧
    (Dbl.ge rdata.pressure alarmpt.highp = false ∧
      Dbl.le rdata.pressure alarmpt.lowp = false) :=
  ⟨⟨Dbl.ge_false_of_lt ht.2, Dbl.le_false_of_lt ht.1⟩,
   ⟨Dbl.ge_false_of_lt hh.2, Dbl.le_false_of_lt hh.1⟩,
   ⟨Dbl.ge_false_of_lt hp.2, Dbl.le_false_of_lt hp.1⟩⟩

/-- Claim C4: the alarm codes are reset on every call. When `GhSetAlarms` has
run on an array with any first reading and runs again on the same array with a
reading for which none of the six comparisons holds (as for a reading strictly
between the low and the high limit of each quantity), all 7 slots have code
NOALARM after the second call, whatever the first call left. -/
theorem GhSetAlarms_reset (calarm : AlarmArray) (alarmpt : alarmlimit_s)
    (first second : reading_s)
    (htemp : Dbl.ge second.temperature alarmpt.hight = false ∧
      Dbl.le second.temperature alarmpt.lowt = false)
    (hhumid : Dbl.ge second.humidity alarmpt.highh = false ∧
      Dbl.le second.humidity alarmpt.lowh = false)
    (hpress : Dbl.ge second.pressure alarmpt.highp = false ∧
      Dbl.le second.pressure alarmpt.lowp = false)
    (i : Fin NALARMS) :
    (GhSetAlarms (GhSetAlarms calarm alarmpt first) alarmpt second i).code = NOALARM := by
  have hquiet : triggers alarmpt second i = false := by
    simp [triggers, htemp.1, htemp.2, hhumid.1, hhumid.2, hpress.1, hpress.2]
  rw [GhSetAlarms_apply, hquiet]
  simp

/-- Claim C4 at the compiled-in limits: the first reading raises HTEMP, LHUMID
and HPRESS, the second lies strictly inside all limits. -/
theorem GhSetAlarms_reset_witness :
    ((GhSetAlarms zeroAlarms GhSetAlarmLimits (readingOfInts 5 30 25 1016)
        ⟨HTEMP, by decide⟩).code = HTEMP ∧
      (GhSetAlarms zeroAlarms GhSetAlarmLimits (readingOfInts 5 30 25 1016)
        ⟨LHUMID, by decide⟩).code = LHUMID ∧
      (GhSetAlarms zeroAlarms GhSetAlarmLimits (readingOfInts 5 30 25 1016)
        ⟨HPRESS, by decide⟩).code = HPRESS) ∧
    ∀ i : Fin NALARMS,
      (GhSetAlarms (GhSetAlarms zeroAlarms GhSetAlarmLimits (readingOfInts 5 30 25 1016))
        GhSetAlarmLimits (readingOfInts 6 20 50 1000) i).code = NOALARM :=
  ⟨by
    simp only [GhSetAlarms_apply]
    decide,
   GhSetAlarms_reset zeroAlarms GhSetAlarmLimits (readingOfInts 5 30 25 1016)
    (readingOfInts 6 20 50 1000)
    (quiet_of_inside GhSetAlarmLimits (readingOfInts 6 20 50 1000)
      (by decide) (by decide) (by decide)).1
    (quiet_of_inside GhSetAlarmLimits (readingOfInts 6 20 50 1000)
      (by decide) (by decide) (by decide)).2.1
    (quiet_of_inside GhSetAlarmLimits (readingOfInts 6 20 50 1000)
      (by decide) (by decide) (by decide)).2.2⟩

/-- Claim C5 as stated fails: two prior arrays, one left by an earlier cycle
that raised HTEMP at time 5 with value 35 and one all zero, give different
arrays for the same limits and the same quiet reading; the time and value of
the earlier alarm are still in slot HTEMP. -/
theorem stale_alarm_survives :
    GhSetAlarms (GhSetAlarms zeroAlarms GhSetAlarmLimits (readingOfInts 5 35 50 1000))
        GhSetAlarmLimits (readingOfInts 6 20 50 1000) ⟨HTEMP, by decide⟩ =
      ⟨NOALARM, 5, Dbl.ofInt 35⟩ ∧
    GhSetAlarms zeroAlarms GhSetAlarmLimits (readingOfInts 6 20 50 1000) ⟨HTEMP, by decide⟩ =
      ⟨NOALARM, 0, Dbl.ofBits 0⟩ ∧
    GhSetAlarms (GhSetAlarms zeroAlarms GhSetAlarmLimits (readingOfInts 5 35 50 1000))
        GhSetAlarmLimits (readingOfInts 6 20 50 1000) ≠
      GhSetAlarms zeroAlarms GhSetAlarmLimits (readingOfInts 6 20 50 1000) := by
  have h1 : GhSetAlarms (GhSetAlarms zeroAlarms GhSetAlarmLimits (readingOfInts 5 35 50 1000))
        GhSetAlarmLimits (readingOfInts 6 20 50 1000) ⟨HTEMP, by decide⟩ =
      ⟨NOALARM, 5, Dbl.ofInt 35⟩ := by
    simp only [GhSetAlarms_apply]
    decide
  have h2 : GhSetAlarms zeroAlarms GhSetAlarmLimits (readingOfInts 6 20 50 1000)
      ⟨HTEMP, by decide⟩ = ⟨NOALARM, 0, Dbl.ofBits 0⟩ := by
    simp only [GhSetAlarms_apply]
    decide
  refine ⟨h1, h2, fun h => ?_⟩
  have h3 := congrFun h ⟨HTEMP, by decide⟩
  rw [h1, h2] at h3
  exact absurd h3 (by decide)

/-- Claim C5, amended: for every limits record and reading and any two prior
contents of the array, the two resulting arrays have the same code in every
slot and the same code, atime and value in every active slot (code not
NOALARM); in a slot left inactive, atime and value are those the array held
before the call. -/
theorem GhSetAlarms_prior (first second : AlarmArray) (alarmpt : alarmlimit_s)
    (rdata : reading_s) (i : Fin NALARMS) :
    (GhSetAlarms first alarmpt rdata i).code = (GhSetAlarms second alarmpt rdata i).code ∧
    ((GhSetAlarms first alarmpt rdata i).code ≠ NOALARM →
      GhSetAlarms first alarmpt rdata i = GhSetAlarms second alarmpt rdata i) ∧
    ((GhSetAlarms first alarmpt rdata i).code = NOALARM →
      (GhSetAlarms first alarmpt rdata i).atime = (first i).atime ∧
      (GhSetAlarms first alarmpt rdata i).value = (first i).value) := by
  have hne := GhSetAlarms_code_ne first alarmpt rdata i
  have e1 := GhSetAlarms_apply first alarmpt rdata i
  have e2 := GhSetAlarms_apply second alarmpt rdata i
  cases h : triggers alarmpt rdata i
  · rw [h] at e1 e2
    simp [e1, e2]
  · rw [h] at e1 e2
    exact ⟨by simp [e1, e2], fun _ => by simp [e1, e2], fun h0 => absurd h0 (hne.2 h)⟩

/-- The number of slots whose comparison holds, slot by slot. -/
theorem card_triggers (alarmpt : alarmlimit_s) (rdata : reading_s) :
    (Finset.univ.filter (fun i : Fin NALARMS => triggers alarmpt rdata i = true)).card =
      (Dbl.ge rdata.temperature alarmpt.hight).toNat +
      (Dbl.le rdata.temperature alarmpt.lowt).toNat +
      (Dbl.ge rdata.humidity alarmpt.highh).toNat +
      (Dbl.le rdata.humidity alarmpt.lowh).toNat +
      (Dbl.ge rdata.pressure alarmpt.highp).toNat +
      (Dbl.le rdata.pressure alarmpt.lowp).toNat := by
  rw [Finset.card_filter]
  simp only [Fin.sum_univ_succ, Fin.sum_univ_zero]
  simp [triggers, HTEMP, LTEMP, HHUMID, LHUMID, HPRESS, LPRESS, Fin.ext_iff]
  cases Dbl.ge rdata.temperature alarmpt.hight <;>
  cases Dbl.le rdata.temperature alarmpt.lowt <;>
  cases Dbl.ge rdata.humidity alarmpt.highh <;>
  cases Dbl.le rdata.humidity alarmpt.lowh <;>
  cases Dbl.ge rdata.pressure alarmpt.highp <;>
  cases Dbl.le rdata.pressure alarmpt.lowp <;> rfl

/-- Claim C10: when each low limit is below its high limit, after
`GhSetAlarms` the slots HTEMP and LTEMP are never both active, nor HHUMID and
LHUMID, nor HPRESS and LPRESS; at most 3 of the 7 slots are active, slot 0 is
not active, and every slot `i` has code NOALARM or `i`. -/
theorem GhSetAlarms_exclusive (calarm : AlarmArray) (alarmpt : alarmlimit_s)
    (rdata : reading_s)
    (htemp : Dbl.lt alarmpt.lowt alarmpt.hight = true)
    (hhumid : Dbl.lt alarmpt.lowh alarmpt.highh = true)
    (hpress : Dbl.lt alarmpt.lowp alarmpt.highp = true) :
    ¬((GhSetAlarms calarm alarmpt rdata ⟨HTEMP, by decide⟩).code ≠ NOALARM ∧
      (GhSetAlarms calarm alarmpt rdata ⟨LTEMP, by decide⟩).code ≠ NOALARM) ∧
    ¬((GhSetAlarms calarm alarmpt rdata ⟨HHUMID, by decide⟩).code ≠ NOALARM ∧
      (GhSetAlarms calarm alarmpt rdata ⟨LHUMID, by decide⟩).code ≠ NOALARM) ∧
    ¬((GhSetAlarms calarm alarmpt rdata ⟨HPRESS, by decide⟩).code ≠ NOALARM ∧
      (GhSetAlarms calarm alarmpt rdata ⟨LPRESS, by decide⟩).code ≠ NOALARM) ∧
    (Finset.univ.filter
      (fun i : Fin NALARMS => (GhSetAlarms calarm alarmpt rdata i).code ≠ NOALARM)).card ≤ 3 ∧
    (GhSetAlarms calarm alarmpt rdata ⟨NOALARM, by decide⟩).code = NOALARM ∧
    (∀ i : Fin NALARMS, (GhSetAlarms calarm alarmpt rdata i).code = NOALARM ∨
      (GhSetAlarms calarm alarmpt rdata i).code = i.val) := by
  have ht := @Dbl.not_ge_and_le rdata.temperature _ _ htemp
  have hh := @Dbl.not_ge_and_le rdata.humidity _ _ hhumid
  have hp := @Dbl.not_ge_and_le rdata.pressure _ _ hpress
  refine ⟨?_, ?_, ?_, ?_, ?_, ?_⟩
  · simpa [GhSetAlarms_code_ne, triggers, HTEMP, LTEMP, HHUMID, LHUMID, HPRESS, LPRESS]
      using ht
  · simpa [GhSetAlarms_code_ne, triggers, HTEMP, LTEMP, HHUMID, LHUMID, HPRESS, LPRESS]
      using hh
  · simpa [GhSetAlarms_code_ne, triggers, HTEMP, LTEMP, HHUMID, LHUMID, HPRESS, LPRESS]
      using hp
  · simp only [GhSetAlarms_code_ne, card_triggers]
    revert ht hh hp
    cases Dbl.ge rdata.temperature alarmpt.hight <;>
    cases Dbl.le rdata.temperature alarmpt.lowt <;>
    cases Dbl.ge rdata.humidity alarmpt.highh <;>
    cases Dbl.le rdata.humidity alarmpt.lowh <;>
    cases Dbl.ge rdata.pressure alarmpt.highp <;>
    cases Dbl.le rdata.pressure alarmpt.lowp <;> simp
  · rw [GhSetAlarms_apply, triggers_zero]
    simp
  · intro i
    rw [GhSetAlarms_apply]
    cases triggers alarmpt rdata i <;> simp

/-- Claim C10 at the compiled-in limits of `GhSetAlarmLimits`, for every
reading and every prior array. -/
theorem GhSetAlarms_exclusive_witness :
    (Dbl.lt GhSetAlarmLimits.lowt GhSetAlarmLimits.hight = true ∧
      Dbl.lt GhSetAlarmLimits.lowh GhSetAlarmLimits.highh = true ∧
      Dbl.lt GhSetAlarmLimits.lowp GhSetAlarmLimits.highp = true) ∧
    ∀ (calarm : AlarmArray) (rdata : reading_s),
      ¬((GhSetAlarms calarm GhSetAlarmLimits rdata ⟨HTEMP, by decide⟩).code ≠ NOALARM ∧
        (GhSetAlarms calarm GhSetAlarmLimits rdata ⟨LTEMP, by decide⟩).code ≠ NOALARM) ∧
      ¬((GhSetAlarms calarm GhSetAlarmLimits rdata ⟨HHUMID, by decide⟩).code ≠ NOALARM ∧
        (GhSetAlarms calarm GhSetAlarmLimits rdata ⟨LHUMID, by decide⟩).code ≠ NOALARM) ∧
      ¬((GhSetAlarms calarm GhSetAlarmLimits rdata ⟨HPRESS, by decide⟩).code ≠ NOALARM ∧
        (GhSetAlarms calarm GhSetAlarmLimits rdata ⟨LPRESS, by decide⟩).code ≠ NOALARM) ∧
      (Finset.univ.filter (fun i : Fin NALARMS =>
        (GhSetAlarms calarm GhSetAlarmLimits rdata i).code ≠ NOALARM)).card ≤ 3 ∧
      (GhSetAlarms calarm GhSetAlarmLimits rdata ⟨NOALARM, by decide⟩).code = NOALARM ∧
      (∀ i : Fin NALARMS, (GhSetAlarms calarm GhSetAlarmLimits rdata i).code = NOALARM ∨
        (GhSetAlarms calarm GhSetAlarmLimits rdata i).code = i.val) :=
  ⟨by decide, fun calarm rdata =>
    GhSetAlarms_exclusive calarm GhSetAlarmLimits rdata (by decide) (by decide) (by decide)⟩

/-! ## Simulated readings -/

theorem GhGetRandom_range (rnd range : Int) (hrnd : 0 ≤ rnd) (hrange : 0 < range) :
    GhGetRandom rnd range = rnd % range ∧ 0 ≤ GhGetRandom rnd range ∧
      GhGetRandom rnd range < range := by
  unfold GhGetRandom
  rw [Int.tmod_eq_emod hrnd (le_of_lt hrange)]
  exact ⟨rfl, Int.emod_nonneg _ (ne_of_gt hrange), Int.emod_lt_of_pos _ hrange⟩

/-- The doubles of the whole numbers from `LSTEMP` up to `USTEMP - 1` are at
or above the double of `LSTEMP` and below the double of `USTEMP`. -/
theorem temperature_doubles :
    ∀ k : Fin 60, Dbl.le (Dbl.ofInt LSTEMP) (Dbl.ofInt ((k.val : Int) + LSTEMP)) = true ∧
      Dbl.lt (Dbl.ofInt ((k.val : Int) + LSTEMP)) (Dbl.ofInt USTEMP) = true := by
  decide

theorem humidity_doubles :
    ∀ k : Fin 100, Dbl.le (Dbl.ofInt LSHUMID) (Dbl.ofInt (k.val : Int)) = true ∧
      Dbl.lt (Dbl.ofInt (k.val : Int)) (Dbl.ofInt USHUMID) = true := by
  decide

theorem pressure_doubles :
    ∀ k : Fin 41, Dbl.le (Dbl.ofInt LSPRESS) (Dbl.ofInt ((k.val : Int) + LSPRESS)) = true ∧
      Dbl.lt (Dbl.ofInt ((k.val : Int) + LSPRESS)) (Dbl.ofInt USPRESS) = true := by
  decide

/-- Claim C8: with simulation switched on and a non-negative value `rnd`
returned by `rand()`, `GhGetRandom range = rnd % range` lies in [0, range) for
every range > 0, and each simulated reading is the double of
LOW + GhGetRandom (HIGH - LOW) and lies in its half-open range: temperature in
[-10, 50), humidity in [0, 100), pressure in [975, 1016), as whole numbers and
in the order of doubles. -/
theorem simulated_in_range (rnd : Int) (hrnd : 0 ≤ rnd) (sensor : Dbl) :
    (∀ range : Int, 0 < range →
      GhGetRandom rnd range = rnd % range ∧ 0 ≤ GhGetRandom rnd range ∧
        GhGetRandom rnd range < range) ∧
    (GhGetTemperature true rnd sensor = Dbl.ofInt (LSTEMP + GhGetRandom rnd (USTEMP - LSTEMP)) ∧
      -10 ≤ LSTEMP + GhGetRandom rnd (USTEMP - LSTEMP) ∧
      LSTEMP + GhGetRandom rnd (USTEMP - LSTEMP) < 50 ∧
      Dbl.le (Dbl.ofInt (-10)) (GhGetTemperature true rnd sensor) = true ∧
      Dbl.lt (GhGetTemperature true rnd sensor) (Dbl.ofInt 50) = true) ∧
    (GhGetHumidity true rnd sensor = Dbl.ofInt (LSHUMID + GhGetRandom rnd (USHUMID - LSHUMID)) ∧
      0 ≤ LSHUMID + GhGetRandom rnd (USHUMID - LSHUMID) ∧
      LSHUMID + GhGetRandom rnd (USHUMID - LSHUMID) < 100 ∧
      Dbl.le (Dbl.ofInt 0) (GhGetHumidity true rnd sensor) = true ∧
      Dbl.lt (GhGetHumidity true rnd sensor) (Dbl.ofInt 100) = true) ∧
    (GhGetPressure true rnd sensor = Dbl.ofInt (LSPRESS + GhGetRandom rnd (USPRESS - LSPRESS)) ∧
      975 ≤ LSPRESS + GhGetRandom rnd (USPRESS - LSPRESS) ∧
      LSPRESS + GhGetRandom rnd (USPRESS - LSPRESS) < 1016 ∧
      Dbl.le (Dbl.ofInt 975) (GhGetPressure true rnd sensor) = true ∧
      Dbl.lt (GhGetPressure true rnd sensor) (Dbl.ofInt 1016) = true) := by
  refine ⟨fun range hrange => GhGetRandom_range rnd range hrnd hrange, ?_, ?_, ?_⟩
  · obtain ⟨-, h0, h1⟩ := GhGetRandom_range rnd (USTEMP - LSTEMP) hrnd (by decide)
    have hk : (GhGetRandom rnd (USTEMP - LSTEMP)).toNat < 60 := by
      have : USTEMP - LSTEMP = 60 := by decide
      omega
    have hd := temperature_doubles ⟨_, hk⟩
    simp only [Int.toNat_of_nonneg h0] at hd
    have hL : LSTEMP = -10 := rfl
    have hU : USTEMP = 50 := rfl
    have hUL : USTEMP - LSTEMP = 60 := by decide
    refine ⟨by simp [GhGetTemperature, add_comm], by omega, by omega, ?_, ?_⟩
    · simpa [GhGetTemperature, hL] using hd.1
    · simpa [GhGetTemperature, hL, hU] using hd.2
  · obtain ⟨-, h0, h1⟩ := GhGetRandom_range rnd (USHUMID - LSHUMID) hrnd (by decide)
    have hk : (GhGetRandom rnd (USHUMID - LSHUMID)).toNat < 100 := by
      have : USHUMID - LSHUMID = 100 := by decide
      omega
    have hd := humidity_doubles ⟨_, hk⟩
    simp only [Int.toNat_of_nonneg h0] at hd
    have hL : LSHUMID = 0 := rfl
    have hU : USHUMID = 100 := rfl
    have hUL : USHUMID - LSHUMID = 100 := by decide
    refine ⟨by simp [GhGetHumidity, hL], by omega, by omega, ?_, ?_⟩
    · simpa [GhGetHumidity, hL] using hd.1
    · simpa [GhGetHumidity, hL, hU] using hd.2
  · obtain ⟨-, h0, h1⟩ := GhGetRandom_range rnd (USPRESS - LSPRESS) hrnd (by decide)
    have hk : (GhGetRandom rnd (USPRESS - LSPRESS)).toNat < 41 := by
      have : USPRESS - LSPRESS = 41 := by decide
      omega
    have hd := pressure_doubles ⟨_, hk⟩
    simp only [Int.toNat_of_nonneg h0] at hd
    have hL : LSPRESS = 975 := rfl
    have hU : USPRESS = 1016 := rfl
    have hUL : USPRESS - LSPRESS = 41 := by decide
    refine ⟨by simp [GhGetPressure, add_comm], by omega, by omega, ?_, ?_⟩
    · simpa [GhGetPressure, hL] using hd.1
    · simpa [GhGetPressure, hL, hU] using hd.2

/-- Claim C8 at `rand() = 12345`: temperature 35, humidity 45, pressure 979. -/
theorem simulated_in_range_witness :
    (0 : Int) ≤ 12345 ∧
    GhGetTemperature true 12345 STEMP = Dbl.ofInt 35 ∧
    GhGetHumidity true 12345 STEMP = Dbl.ofInt 45 ∧
    GhGetPressure true 12345 STEMP = Dbl.ofInt 979 ∧
    Dbl.le (Dbl.ofInt (-10)) (GhGetTemperature true 12345 STEMP) = true ∧
    Dbl.lt (GhGetTemperature true 12345 STEMP) (Dbl.ofInt 50) = true :=
  ⟨by decide, by decide, by decide, by decide,
    (simulated_in_range 12345 (by decide) STEMP).2.1.2.2.2.1,
    (simulated_in_range 12345 (by decide) STEMP).2.1.2.2.2.2⟩

/-! ## The setpoint file -/

theorem length_leBytes (k n : Nat) : (leBytes k n).length = k := by
  induction k generalizing n with
  | zero => rfl
  | succ k ih => simp [leBytes, ih]

theorem leValue_leBytes (k n : Nat) : leValue (leBytes k n) = n % 256 ^ k := by
  induction k generalizing n with
  | zero => simp [leBytes, leValue, Nat.mod_one]
  | succ k ih =>
    simp only [leBytes, leValue, ih, Fin.ofNat, Nat.mod_mod]
    rw [pow_succ', Nat.mod_mul]

theorem Dbl.ofBits_val (d : Dbl) : Dbl.ofBits d.val = d := by
  cases d with
  | mk v h =>
    unfold Dbl.ofBits
    congr 1
    exact Nat.mod_eq_of_lt h

/-- Reading back the 16 bytes written for a record gives the record. -/
theorem setpointOfBytes_setpointBytes (spts : setpoint_s) :
    setpointOfBytes (setpointBytes spts) = spts := by
  have h8 : (leBytes 8 spts.temperature.val).length = 8 := length_leBytes _ _
  have h16 : (setpointBytes spts).length = 16 := by
    simp [setpointBytes, length_leBytes]
  have e1 : ((setpointBytes spts).take 16 ++ List.replicate 16 0).take 16 = setpointBytes spts := by
    rw [List.take_of_length_le (le_of_eq h16), List.take_left' h16]
  have e2 : (setpointBytes spts).take 8 = leBytes 8 spts.temperature.val := by
    simp [setpointBytes, List.take_left' h8]
  have e3 : ((setpointBytes spts).drop 8).take 8 = leBytes 8 spts.humidity.val := by
    simp [setpointBytes, List.drop_left' h8, List.take_of_length_le, length_leBytes]
  have hp : (256 : Nat) ^ 8 = 2 ^ 64 := by norm_num
  unfold setpointOfBytes
  simp only [e1, e2, e3, leValue_leBytes, hp, Nat.mod_eq_of_lt spts.temperature.isLt,
    Nat.mod_eq_of_lt spts.humidity.isLt, Dbl.ofBits_val]

theorem store_content_self (fs : FileSys) (fname : String) (bytes : List Byte) :
    (fs.store fname bytes).content fname = some bytes := by
  simp [FileSys.store]

theorem GhSaveSetpoints_writable (accepted : Nat) (fs : FileSys) (fname : String)
    (spts : setpoint_s) (h : (GhSaveSetpoints accepted fs fname spts).1 = 1) :
    fs.writable fname = true := by
  unfold GhSaveSetpoints at h
  cases hw : fs.writable fname
  · simp [hw] at h
  · rfl

theorem GhRetrieveSetpoints_readable (fs : FileSys) (fname : String) (bytes : List Byte)
    (hread : fs.readable fname = true) (hfile : fs.content fname = some bytes) :
    GhRetrieveSetpoints fs fname = setpointOfBytes bytes := by
  simp [GhRetrieveSetpoints, FileSys.openRead, hread, hfile]

theorem GhRetrieveSetpoints_closed (fs : FileSys) (fname : String)
    (h : fs.content fname = none ∨ fs.readable fname = false) :
    GhRetrieveSetpoints fs fname = ⟨Dbl.ofBits 0, Dbl.ofBits 0⟩ := by
  rcases h with h | h <;> cases hr : fs.readable fname <;>
    simp_all [GhRetrieveSetpoints, FileSys.openRead]

theorem length_setpointBytes (spts : setpoint_s) : (setpointBytes spts).length = 16 := by
  simp [setpointBytes, length_leBytes]

theorem take_setpointBytes (accepted : Nat) (spts : setpoint_s) (hfull : 16 ≤ accepted) :
    (setpointBytes spts).take accepted = setpointBytes spts :=
  List.take_of_length_le (by rw [length_setpointBytes]; exact hfull)

/-- Whatever part of the record {0, 5} reaches the file, the temperature read
back compares equal to 0. -/
theorem zero_record_cut (accepted : Nat) :
    Dbl.eq (setpointOfBytes
      ((setpointBytes ⟨Dbl.ofInt 0, Dbl.ofInt 5⟩).take accepted)).temperature
      (Dbl.ofInt 0) = true := by
  have hsmall : ∀ k : Fin 17, Dbl.eq (setpointOfBytes
      ((setpointBytes ⟨Dbl.ofInt 0, Dbl.ofInt 5⟩).take k.val)).temperature
      (Dbl.ofInt 0) = true := by decide
  by_cases h : accepted < 17
  · exact hsmall ⟨accepted, h⟩
  · rw [take_setpointBytes accepted _ (by omega)]
    exact hsmall ⟨16, by decide⟩

/-- Claim C6 as stated fails: `setpoints.dat` may be written but not read;
saving {20, 40} returns 1 and leaves exactly that record in the file, yet
`GhRetrieveSetpoints` returns {0, 0} and `GhSetTargets` the defaults. -/
theorem roundtrip_fails_unreadable :
    Dbl.eq (Dbl.ofInt 20) (Dbl.ofInt 0) = false ∧
    (GhSaveSetpoints 16 writeOnlyFiles "setpoints.dat" ⟨Dbl.ofInt 20, Dbl.ofInt 40⟩).1 = 1 ∧
    (GhSaveSetpoints 16 writeOnlyFiles "setpoints.dat" ⟨Dbl.ofInt 20, Dbl.ofInt 40⟩).2.content
        "setpoints.dat" = some (setpointBytes ⟨Dbl.ofInt 20, Dbl.ofInt 40⟩) ∧
    GhRetrieveSetpoints
        (GhSaveSetpoints 16 writeOnlyFiles "setpoints.dat" ⟨Dbl.ofInt 20, Dbl.ofInt 40⟩).2
        "setpoints.dat" = ⟨Dbl.ofBits 0, Dbl.ofBits 0⟩ ∧
    GhRetrieveSetpoints
        (GhSaveSetpoints 16 writeOnlyFiles "setpoints.dat" ⟨Dbl.ofInt 20, Dbl.ofInt 40⟩).2
        "setpoints.dat" ≠ ⟨Dbl.ofInt 20, Dbl.ofInt 40⟩ ∧
    GhSetTargets
        (GhSaveSetpoints 16 writeOnlyFiles "setpoints.dat" ⟨Dbl.ofInt 20, Dbl.ofInt 40⟩).2 =
      ⟨STEMP, SHUMID⟩ ∧
    GhSetTargets
        (GhSaveSetpoints 16 writeOnlyFiles "setpoints.dat" ⟨Dbl.ofInt 20, Dbl.ofInt 40⟩).2 ≠
      ⟨Dbl.ofInt 20, Dbl.ofInt 40⟩ := by
  decide

/-- The value 1 is returned also when no byte of the record reaches the file:
on a readable and writable `setpoints.dat` that accepts nothing, saving
{20, 40} returns 1, the file is left empty and the loads give {0, 0} and the
defaults. -/
theorem save_returns_one_without_write :
    (GhSaveSetpoints 0 openFiles "setpoints.dat" ⟨Dbl.ofInt 20, Dbl.ofInt 40⟩).1 = 1 ∧
    (GhSaveSetpoints 0 openFiles "setpoints.dat" ⟨Dbl.ofInt 20, Dbl.ofInt 40⟩).2.content
        "setpoints.dat" = some [] ∧
    GhRetrieveSetpoints
        (GhSaveSetpoints 0 openFiles "setpoints.dat" ⟨Dbl.ofInt 20, Dbl.ofInt 40⟩).2
        "setpoints.dat" = ⟨Dbl.ofBits 0, Dbl.ofBits 0⟩ ∧
    GhSetTargets
        (GhSaveSetpoints 0 openFiles "setpoints.dat" ⟨Dbl.ofInt 20, Dbl.ofInt 40⟩).2 =
      ⟨STEMP, SHUMID⟩ := by
  decide

/-- Claim C6, amended: when `GhSaveSetpoints` returns 1 and all 16 bytes of
the record reach the file (nothing is said of a write that falls short), the
file holds exactly the 16 bytes of the record, whatever it held before, and
these decode to the record; if the file can then be opened for reading,
`GhRetrieveSetpoints` returns the record, and for the path `setpoints.dat` and
a record with temperature != 0 `GhSetTargets` returns it with both members
unchanged. -/
theorem setpoint_roundtrip (accepted : Nat) (fs : FileSys) (fname : String)
    (spts : setpoint_s)
    (hsave : (GhSaveSetpoints accepted fs fname spts).1 = 1)
    (hfull : 16 ≤ accepted) :
    (GhSaveSetpoints accepted fs fname spts).2.content fname = some (setpointBytes spts) ∧
    (setpointBytes spts).length = 16 ∧
    setpointOfBytes (setpointBytes spts) = spts ∧
    (fs.readable fname = true →
      GhRetrieveSetpoints (GhSaveSetpoints accepted fs fname spts).2 fname = spts) ∧
    (fs.readable fname = true → fname = "setpoints.dat" →
      Dbl.eq spts.temperature (Dbl.ofInt 0) = false →
      GhSetTargets (GhSaveSetpoints accepted fs fname spts).2 = spts) := by
  have hw := GhSaveSetpoints_writable accepted fs fname spts hsave
  have hfs : (GhSaveSetpoints accepted fs fname spts).2 =
      fs.store fname (setpointBytes spts) := by
    simp [GhSaveSetpoints, hw, take_setpointBytes accepted spts hfull]
  have hfile := store_content_self fs fname (setpointBytes spts)
  have hget : fs.readable fname = true →
      GhRetrieveSetpoints (fs.store fname (setpointBytes spts)) fname = spts := by
    intro hread
    rw [GhRetrieveSetpoints_readable (fs.store fname (setpointBytes spts)) fname
        (setpointBytes spts) hread hfile,
      setpointOfBytes_setpointBytes]
  rw [hfs]
  refine ⟨hfile, length_setpointBytes spts, setpointOfBytes_setpointBytes spts, hget, ?_⟩
  intro hread hname hnz
  subst hname
  unfold GhSetTargets
  simp only [hget hread, hnz]
  simp

/-- Claim C6 at a readable and writable `setpoints.dat` that held three bytes
and takes the whole record: saving {20, 40} returns 1 and both loads return
{20, 40}. -/
theorem setpoint_roundtrip_witness :
    (GhSaveSetpoints 16 openFiles "setpoints.dat" ⟨Dbl.ofInt 20, Dbl.ofInt 40⟩).1 = 1 ∧
    openFiles.content "setpoints.dat" = some [1, 2, 3] ∧
    GhRetrieveSetpoints
        (GhSaveSetpoints 16 openFiles "setpoints.dat" ⟨Dbl.ofInt 20, Dbl.ofInt 40⟩).2
        "setpoints.dat" = ⟨Dbl.ofInt 20, Dbl.ofInt 40⟩ ∧
    GhSetTargets (GhSaveSetpoints 16 openFiles "setpoints.dat" ⟨Dbl.ofInt 20, Dbl.ofInt 40⟩).2 =
      ⟨Dbl.ofInt 20, Dbl.ofInt 40⟩ :=
  ⟨by decide, by decide,
    (setpoint_roundtrip 16 openFiles "setpoints.dat" ⟨Dbl.ofInt 20, Dbl.ofInt 40⟩
      (by decide) (by decide)).2.2.2.1 (by decide),
    (setpoint_roundtrip 16 openFiles "setpoints.dat" ⟨Dbl.ofInt 20, Dbl.ofInt 40⟩
      (by decide) (by decide)).2.2.2.2 (by decide) rfl (by decide)⟩

/-- Claim C7: `GhSetTargets` returns the defaults {25.0, 55.0} when
`setpoints.dat` is missing or cannot be opened, and when the record stored in
it has temperature == 0, whatever the stored humidity; after a save of {0, 5}
that returned 1, however much of the record reached the file, the load returns
{25.0, 55.0} and not {0, 5}. When the file can be opened and the stored
temperature is not 0, the stored record is returned unchanged. -/
theorem GhSetTargets_spec (fs : FileSys) :
    (STEMP = Dbl.ofInt 25 ∧ SHUMID = Dbl.ofInt 55) ∧
    (fs.content "setpoints.dat" = none ∨ fs.readable "setpoints.dat" = false →
      GhSetTargets fs = ⟨STEMP, SHUMID⟩) ∧
    (∀ bytes : List Byte, fs.content "setpoints.dat" = some bytes →
      Dbl.eq (setpointOfBytes bytes).temperature (Dbl.ofInt 0) = true →
      GhSetTargets fs = ⟨STEMP, SHUMID⟩) ∧
    (∀ accepted : Nat,
      (GhSaveSetpoints accepted fs "setpoints.dat" ⟨Dbl.ofInt 0, Dbl.ofInt 5⟩).1 = 1 →
      GhSetTargets (GhSaveSetpoints accepted fs "setpoints.dat"
          ⟨Dbl.ofInt 0, Dbl.ofInt 5⟩).2 = ⟨STEMP, SHUMID⟩ ∧
      (⟨STEMP, SHUMID⟩ : setpoint_s) ≠ ⟨Dbl.ofInt 0, Dbl.ofInt 5⟩) ∧
    (∀ bytes : List Byte, fs.content "setpoints.dat" = some bytes →
      fs.readable "setpoints.dat" = true →
      Dbl.eq (setpointOfBytes bytes).temperature (Dbl.ofInt 0) = false →
      GhSetTargets fs = setpointOfBytes bytes) := by
  have hz : Dbl.eq (Dbl.ofBits 0) (Dbl.ofInt 0) = true := by decide
  have hclosed : ∀ fs : FileSys,
      fs.content "setpoints.dat" = none ∨ fs.readable "setpoints.dat" = false →
      GhSetTargets fs = ⟨STEMP, SHUMID⟩ := by
    intro fs h
    unfold GhSetTargets
    simp only [GhRetrieveSetpoints_closed fs _ h, hz]
    simp
  have hzero : ∀ (fs : FileSys) (bytes : List Byte), fs.content "setpoints.dat" = some bytes →
      Dbl.eq (setpointOfBytes bytes).temperature (Dbl.ofInt 0) = true →
      GhSetTargets fs = ⟨STEMP, SHUMID⟩ := by
    intro fs bytes hfile h0
    cases hread : fs.readable "setpoints.dat"
    · exact hclosed fs (Or.inr hread)
    · unfold GhSetTargets
      simp only [GhRetrieveSetpoints_readable fs _ bytes hread hfile, h0]
      simp
  refine ⟨by decide, hclosed fs, hzero fs, ?_, ?_⟩
  · intro accepted hsave
    have hw := GhSaveSetpoints_writable accepted fs _ _ hsave
    have hfs : (GhSaveSetpoints accepted fs "setpoints.dat" ⟨Dbl.ofInt 0, Dbl.ofInt 5⟩).2 =
        fs.store "setpoints.dat"
          ((setpointBytes ⟨Dbl.ofInt 0, Dbl.ofInt 5⟩).take accepted) := by
      simp [GhSaveSetpoints, hw]
    rw [hfs]
    exact ⟨hzero _ _ (store_content_self _ _ _) (zero_record_cut accepted), by decide⟩
  · intro bytes hfile hread hnz
    unfold GhSetTargets
    simp only [GhRetrieveSetpoints_readable fs _ bytes hread hfile, hnz]
    simp

/-- Claim C7 at concrete files: no file at all, a file that may not be read,
the record {0, 5} saved in full and loaded, and the record {20, 40} stored and
loaded. -/
theorem GhSetTargets_spec_witness :
    GhSetTargets lockedFiles = ⟨Dbl.ofInt 25, Dbl.ofInt 55⟩ ∧
    GhSetTargets writeOnlyFiles = ⟨STEMP, SHUMID⟩ ∧
    GhSetTargets (GhSaveSetpoints 16 openFiles "setpoints.dat" ⟨Dbl.ofInt 0, Dbl.ofInt 5⟩).2 =
      ⟨STEMP, SHUMID⟩ ∧
    GhSetTargets (openFiles.store "setpoints.dat" (setpointBytes ⟨Dbl.ofInt 20, Dbl.ofInt 40⟩)) =
      ⟨Dbl.ofInt 20, Dbl.ofInt 40⟩ :=
  ⟨(GhSetTargets_spec lockedFiles).2.1 (Or.inl rfl),
   (GhSetTargets_spec writeOnlyFiles).2.1 (Or.inr rfl),
   ((GhSetTargets_spec openFiles).2.2.2.1 16 (by decide)).1,
   by
    have h := (GhSetTargets_spec
      (openFiles.store "setpoints.dat" (setpointBytes ⟨Dbl.ofInt 20, Dbl.ofInt 40⟩))).2.2.2.2
      (setpointBytes ⟨Dbl.ofInt 20, Dbl.ofInt 40⟩) (by decide) (by decide) (by decide)
    rw [setpointOfBytes_setpointBytes] at h
    exact h⟩

/-! ## The log file -/

theorem strcpy_overrun (size : Nat) (src : List Byte) (hstr : ∀ b ∈ src, b ≠ 0)
    (hlen : size ≤ src.length) : strcpy size src = none := by
  have hchars : src.takeWhile (fun b => decide (b ≠ 0)) = src := by
    rw [List.takeWhile_eq_self_iff]
    intro b hb
    simpa using hstr b hb
  unfold strcpy
  simp only [hchars]
  rw [if_neg (by omega)]

/-- Claim C9 fails on the code: whenever the log can be opened and `ctime`
returns a string of its standard form, 25 characters before the terminating
zero, `strcpy` writes 26 bytes into the 25 bytes of `ltime` and the call has
undefined behaviour: no value 1 is returned and no record is appended by the
program as written. The same holds when `ctime` returns the null pointer. When
the log cannot be opened, 0 is returned and nothing changes. -/
theorem GhLogData_overrun (ctime : Int → Option (List Byte))
    (fmt : Nat → Nat → Dbl → List Byte) (accepted : Nat) (fs : FileSys) (fname : String)
    (ghdata : reading_s) (text : List Byte)
    (hopen : fs.writable fname = true)
    (htext : ctime ghdata.rtime = some text)
    (hstr : ∀ b ∈ text, b ≠ 0)
    (hlen : text.length = 25) :
    GhLogData ctime fmt accepted fs fname ghdata = none := by
  have hcpy : strcpy CTIMESTRSZ text = none :=
    strcpy_overrun CTIMESTRSZ text hstr (by rw [hlen]; decide)
  simp [GhLogData, hopen, htext, hcpy]

/-- Claim C9 at the epoch: the log can be opened, `ctime` returns
`Thu Jan  1 00:00:00 1970` and a newline, and the call is undefined. -/
theorem GhLogData_overrun_witness :
    openFiles.writable "ghdata.txt" = true ∧
    GhLogData epochText hashText 40 openFiles "ghdata.txt" ⟨0, STEMP, SHUMID, STEMP⟩ = none :=
  ⟨rfl, GhLogData_overrun epochText hashText 40 openFiles "ghdata.txt"
    ⟨0, STEMP, SHUMID, STEMP⟩ ("Thu Jan  1 00:00:00 1970\n".toList.map chr)
    rfl rfl (by simp [chr, Fin.ofNat]) (by decide)⟩

/-- The rest of `GhLogData`, at concrete inputs: a log that cannot be opened
gives 0 and no change; a null pointer from `ctime` is undefined; a string of
24 characters fits the buffer, 1 is returned and the record is appended, or
only its first bytes when the write falls short. -/
theorem GhLogData_samples :
    GhLogData epochText hashText 40 lockedFiles "ghdata.txt" ⟨0, STEMP, SHUMID, STEMP⟩ =
      some (0, lockedFiles) ∧
    GhLogData nullText hashText 40 openFiles "ghdata.txt" ⟨0, STEMP, SHUMID, STEMP⟩ = none ∧
    (GhLogData shortText hashText 40 openFiles "ghdata.txt" ⟨0, STEMP, SHUMID, STEMP⟩).map
        (fun r => (r.1, r.2.content "ghdata.txt")) =
      some (1, some ("\nThu,Jan, 1,00:00:00,1970,#,#,#".toList.map chr)) ∧
    (GhLogData shortText hashText 4 openFiles "ghdata.txt" ⟨0, STEMP, SHUMID, STEMP⟩).map
        (fun r => (r.1, r.2.content "ghdata.txt")) =
      some (1, some ("\nThu".toList.map chr)) := by
  refine ⟨?_, ?_, ?_, ?_⟩
  · simp [GhLogData, lockedFiles]
  · simp [GhLogData, nullText, openFiles]
  · decide
  · decide

end GhControl
